import Mathlib

/-!
# mesos-consul: the refresh cycle of `mesos/mesos.go`

A shallow embedding of `Mesos.Refresh`, `Mesos.loadState`, `Mesos.loadFromMaster`
and `Mesos.parseState`, together with the polling loop of `main.go`.

Every call that leaves the process (an HTTP request, a call on the registry) is
recorded, in order, in a trace of events.  What the outside world answers is
given by a `World` of oracles; an oracle sees the trace so far, so that two
calls with the same arguments may be answered differently.

A Go call ends in one of three ways: it returns, it panics (the panic unwinds
until a deferred `recover` stops it), or the process exits (`log.Fatal` of
logrus logs and calls `os.Exit(1)`; no deferred function runs).
Logging calls other than `log.Fatal` have no effect on control flow and are not
recorded.
-/

namespace MesosConsul

/-! ## Data model -/

/-- Modelled from the spec: the `state` package is absent from the sources.
A task carries an identity, a service name, the ID of the agent it runs on
(`SlaveID`) and a lifecycle state (`State`), the two fields `parseState` reads. -/
structure Task where
  ID : String
  Name : String
  SlaveID : String
  State : String
deriving DecidableEq

/-- Modelled from the spec: a framework is an identity and an ordered sequence
of tasks (`fw.Tasks` in `parseState`). -/
structure Framework where
  ID : String
  Tasks : List Task
deriving DecidableEq

/-- Modelled from the spec: the decoded state document, restricted to the
fields `mesos.go` reads: `Leader` and `Frameworks`. -/
structure State where
  Leader : String
  Frameworks : List Framework
deriving DecidableEq

/-- The zero value of `state.State` (`var sj state.State`). -/
def State.zero : State := ⟨"", []⟩

/-- The leader as `getLeader` hands it to `loadState`: the fields `Ip` and
`PortString` are the ones read there. -/
structure MesosHost where
  Ip : String
  PortString : String
deriving DecidableEq

/-- The part of `Mesos` that a cycle reads and writes: the agent index
`Agents map[string]string`, as an association list read with `List.lookup`. -/
structure Mesos where
  Agents : List (String × String)
deriving DecidableEq

/-- An HTTP request as `loadFromMaster` builds it. -/
structure Request where
  Method : String
  URL : String
  Header : List (String × String)
deriving DecidableEq

/-- What happens to a request handed to `client.Do`: the request cannot
complete, the body cannot be read, the body is not JSON for a state, or the
body decodes to a state. -/
inductive HttpResult where
  | doError
  | readError
  | decodeError
  | ok (sj : State)
deriving DecidableEq

/-- The calls that leave the process, and `log.Fatal`. -/
inductive Event where
  | httpDo (req : Request)
  | fatal
  | cacheCreate (b : Bool)
  | loadCache
  | registerHosts (sj : State)
  | registerTask (task : Task) (agent : String)
  | registryWrite (task : Task) (agent : String) (ok : Bool)
  | deregister
deriving DecidableEq

abbrev Trace := List Event

/-- How a Go call ends. -/
inductive Outcome (α : Type) where
  | ret (a : α)
  | panic
  | exit
deriving DecidableEq

/-- A finished call: the trace up to its end, and how it ended. -/
structure Run (α : Type) where
  trace : Trace
  out : Outcome α
deriving DecidableEq

/-- Sequencing: the continuation runs only when the call returned. -/
def Run.andThen {α β : Type} (r : Run α) (k : Trace → α → Run β) : Run β :=
  match r with
  | ⟨t, .ret a⟩ => k t a
  | ⟨t, .panic⟩ => ⟨t, .panic⟩
  | ⟨t, .exit⟩ => ⟨t, .exit⟩

/-- The world around one cycle.  Everything here is code or environment that is
not in `mesos.go`:
* `getLeader`: the leader the locator returns to this cycle;
* `validURL`: whether `http.NewRequest` accepts the URL (it returns a nil
  request otherwise);
* `roundTrip`: the answer to a request, given the trace so far;
* `leaderIP`: the helper that extracts the address from a `Leader` field,
  `none` when it panics;
* `CacheCreate`: the answer of `Registry.CacheCreate()`;
* `RegisterHosts`: the agent index `RegisterHosts` leaves in `m.Agents`;
* `cacheHit`, `registerOk`: inside `registerTask`, whether the cache already
  holds the registration and whether the registry write succeeds. -/
structure World where
  getLeader : MesosHost
  validURL : String → Bool
  roundTrip : Trace → Request → HttpResult
  leaderIP : String → Option String
  CacheCreate : Trace → Bool
  RegisterHosts : State → List (String × String)
  cacheHit : Trace → Task → String → Bool
  registerOk : Trace → Task → String → Bool

/-! ## Event classification -/

/-- The event is an HTTP fetch. -/
def Event.isFetch : Event → Bool
  | .httpDo _ => true
  | _ => false

/-- The event is a call on the registry side: `CacheCreate`, `LoadCache`,
`RegisterHosts`, `registerTask` (and its write) or `Deregister`. -/
def Event.isRegistry : Event → Bool
  | .httpDo _ => false
  | .fatal => false
  | _ => true

/-- The event belongs to reconciliation proper: `RegisterHosts`,
`registerTask` (and its write) or `Deregister`. -/
def Event.isReconcile : Event → Bool
  | .registerHosts _ => true
  | .registerTask _ _ => true
  | .registryWrite _ _ _ => true
  | .deregister => true
  | _ => false

/-- The requests fetched, in order. -/
def fetches : Trace → List Request
  | [] => []
  | .httpDo req :: t => req :: fetches t
  | _ :: t => fetches t

/-- The `registerTask` calls, in order, each with its task and hostname. -/
def registerCalls : Trace → List (Task × String)
  | [] => []
  | .registerTask task agent :: t => (task, agent) :: registerCalls t
  | _ :: t => registerCalls t

/-! ## The code -/

/-- `http.NewRequest(method, url, nil)`: a request with no header, or nil. -/
def NewRequest (w : World) (method url : String) : Option Request :=
  if w.validURL url then some ⟨method, url, []⟩ else none

/-- `req.Header.Set(key, value)`. -/
def Request.setHeader (req : Request) (key value : String) : Request :=
  { req with Header := (key, value) :: req.Header.filter (fun kv => kv.1 != key) }

/-- `Mesos.loadFromMaster`.  The error of `http.NewRequest` is overwritten
unread, so a nil request reaches `req.Header.Set`, which panics.  Each of the
three later errors goes to `log.Fatal`. -/
def loadFromMaster (w : World) (t : Trace) (ip port : String) : Run State :=
  let url := "http://" ++ ip ++ ":" ++ port ++ "/master/state.json"
  match NewRequest w "GET" url with
  | none => ⟨t, .panic⟩
  | some req0 =>
    let req := req0.setHeader "Content-Type" "application/json"
    let t1 := t ++ [.httpDo req]
    match w.roundTrip t req with
    | .doError => ⟨t1 ++ [.fatal], .exit⟩
    | .readError => ⟨t1 ++ [.fatal], .exit⟩
    | .decodeError => ⟨t1 ++ [.fatal], .exit⟩
    | .ok sj => ⟨t1, .ret sj⟩

/-- The body of `Mesos.loadState`, below the `defer`: the pair returned is
`(sj, err)`, and the local `err` is never assigned on this path. -/
def loadStateBody (w : World) (t : Trace) : Run (State × Option String) :=
  let err : Option String := none
  let sj : State := State.zero
  let mh := w.getLeader
  if mh.Ip = "" then
    ⟨t, .ret (sj, some "No master in zookeeper")⟩
  else
    (loadFromMaster w t mh.Ip mh.PortString).andThen fun t1 sj =>
      match w.leaderIP sj.Leader with
      | none => ⟨t1, .panic⟩
      | some rip =>
        if rip ≠ mh.Ip then
          (loadFromMaster w t1 rip mh.PortString).andThen fun t2 sj =>
            ⟨t2, .ret (sj, err)⟩
        else
          ⟨t1, .ret (sj, err)⟩

/-- `Mesos.loadState`: the body under its deferred handler.  The handler
recovers a panic and assigns the local variable `err`; the results of
`loadState` are unnamed, so after a recovered panic the caller receives their
zero values.  An exit is not a panic and passes through. -/
def loadState (w : World) (t : Trace) : Run (State × Option String) :=
  match loadStateBody w t with
  | ⟨t1, .panic⟩ =>
    let _err : Option String := some "can't connect to Mesos"
    ⟨t1, .ret (State.zero, none)⟩
  | r => r

/-- Modelled from the spec: `registerTask` is absent from the sources.  It
builds the descriptor for the task on the agent's hostname; when the cache
already holds it the write is skipped; otherwise the registry write is issued,
and a failed write is logged and the call returns like a successful one. -/
def registerTask (w : World) (t : Trace) (task : Task) (agent : String) : Run Unit :=
  let t1 := t ++ [.registerTask task agent]
  if w.cacheHit t1 task agent then
    ⟨t1, .ret ()⟩
  else
    ⟨t1 ++ [.registryWrite task agent (w.registerOk t1 task agent)], .ret ()⟩

/-- The inner loop of `parseState`: `for _, task := range fw.Tasks`. -/
def parseTasks (w : World) (m : Mesos) (t : Trace) : List Task → Run Unit
  | [] => ⟨t, .ret ()⟩
  | task :: rest =>
    match m.Agents.lookup task.SlaveID with
    | some agent =>
      if task.State = "TASK_RUNNING" then
        (registerTask w t task agent).andThen fun t1 _ => parseTasks w m t1 rest
      else
        parseTasks w m t rest
    | none => parseTasks w m t rest

/-- The outer loop of `parseState`: `for _, fw := range sj.Frameworks`. -/
def parseFrameworks (w : World) (m : Mesos) (t : Trace) : List Framework → Run Unit
  | [] => ⟨t, .ret ()⟩
  | fw :: rest =>
    (parseTasks w m t fw.Tasks).andThen fun t1 _ => parseFrameworks w m t1 rest

/-- `Mesos.parseState`: `RegisterHosts`, the two loops, `Registry.Deregister`.
The value returned is the receiver after the call. -/
def parseState (w : World) (t : Trace) (m : Mesos) (sj : State) : Run Mesos :=
  let m1 : Mesos := { m with Agents := w.RegisterHosts sj }
  let t1 := t ++ [.registerHosts sj]
  (parseFrameworks w m1 t1 sj.Frameworks).andThen fun t2 _ =>
    ⟨t2 ++ [.deregister], .ret m1⟩

/-- `Mesos.Refresh`: one cycle, from an empty trace.  The value returned is the
receiver after the call and the error (`none` is nil). -/
def Refresh (w : World) (m : Mesos) : Run (Mesos × Option String) :=
  (loadState w []).andThen fun t r =>
    match r.2 with
    | some e => ⟨t, .ret (m, some e)⟩
    | none =>
      if r.1.Leader = "" then
        ⟨t, .ret (m, some "Empty master")⟩
      else
        let b := w.CacheCreate t
        let t1 := t ++ [.cacheCreate b]
        let t2 := if b then t1 ++ [.loadCache] else t1
        (parseState w t2 m r.1).andThen fun t3 m1 => ⟨t3, .ret (m1, none)⟩

/-- The polling loop of `main`: `leader.Refresh()` once and then once per
tick, the error dropped.  One world per cycle; the loop goes on only when
`Refresh` returned. -/
def main : List World → Mesos → Run Mesos
  | [], m => ⟨[], .ret m⟩
  | w :: ws, m =>
    match Refresh w m with
    | ⟨t, .ret r⟩ => let rest := main ws r.1; ⟨t ++ rest.trace, rest.out⟩
    | ⟨t, .panic⟩ => ⟨t, .panic⟩
    | ⟨t, .exit⟩ => ⟨t, .exit⟩

/-! ## The claims in their own words -/

/-- The tasks of one framework the claim calls eligible, with their hostnames:
those whose `SlaveID` is a key of the agent index and whose `State` is
`TASK_RUNNING`, in order. -/
def eligibleTasks (agents : List (String × String)) (tasks : List Task) :
    List (Task × String) :=
  tasks.filterMap fun task =>
    match agents.lookup task.SlaveID with
    | some agent => if task.State = "TASK_RUNNING" then some (task, agent) else none
    | none => none

/-- The eligible tasks of a state: framework by framework, task by task. -/
def eligible (agents : List (String × String)) (sj : State) : List (Task × String) :=
  sj.Frameworks.flatMap fun fw => eligibleTasks agents fw.Tasks

/-- The event is a `registerTask` call or the registry write inside one. -/
def Event.isTaskEvent : Event → Bool
  | .registerTask _ _ => true
  | .registryWrite _ _ _ => true
  | _ => false

/-- The request the HTTP contract describes for an address and a port. -/
def stateRequest (ip port : String) : Request :=
  ⟨"GET", "http://" ++ ip ++ ":" ++ port ++ "/master/state.json",
    [("Content-Type", "application/json")]⟩

/-! ## Concrete worlds -/

def taskWeb : Task := ⟨"t1", "web", "agent-1", "TASK_RUNNING"⟩

def taskDb : Task := ⟨"t2", "db", "agent-9", "TASK_RUNNING"⟩

def taskJob : Task := ⟨"t3", "job", "agent-1", "TASK_FINISHED"⟩

def taskApi : Task := ⟨"t4", "api", "agent-1", "TASK_RUNNING"⟩

/-- A snapshot led by 10.0.0.5: two frameworks, four tasks; `agent-9` is not
an agent of the cluster. -/
def snapshot : State :=
  ⟨"master@10.0.0.5:5050", [⟨"fw1", [taskWeb, taskDb, taskJob]⟩, ⟨"fw2", [taskApi]⟩]⟩

/-- A snapshot whose only task has finished. -/
def snapshotFinished : State :=
  ⟨"master@10.0.0.5:5050", [⟨"fw1", [⟨"t1", "web", "agent-1", "TASK_FINISHED"⟩]⟩]⟩

/-- A snapshot of a master that reports 10.0.0.6 as the leader. -/
def snapshotMoved : State := ⟨"master@10.0.0.6:5050", []⟩

/-- A snapshot served by 10.0.0.6 that reports yet another leader. -/
def snapshotThird : State := ⟨"master@10.0.0.7:5050", [⟨"fw1", [taskWeb]⟩]⟩

/-- A snapshot of a master that knows no elected leader. -/
def snapshotNoLeader : State := ⟨"", [⟨"fw1", [taskWeb]⟩]⟩

/-- A `leaderIP` for the concrete worlds: the address between `@` and `:` of
the leader fields used here; it panics on a field without `@`. -/
def ipOf (leader : String) : Option String :=
  if leader = "master@10.0.0.5:5050" then some "10.0.0.5"
  else if leader = "master@10.0.0.6:5050" then some "10.0.0.6"
  else if leader = "master@10.0.0.7:5050" then some "10.0.0.7"
  else none

/-- The locator and the master agree on 10.0.0.5; the registry has a cache and
every write succeeds. -/
def worldSteady : World where
  getLeader := ⟨"10.0.0.5", "5050"⟩
  validURL := fun _ => true
  roundTrip := fun _ _ => .ok snapshot
  leaderIP := ipOf
  CacheCreate := fun _ => true
  RegisterHosts := fun _ => [("agent-1", "host-a")]
  cacheHit := fun _ _ _ => false
  registerOk := fun _ _ _ => true

/-- The locator has seen no leader yet. -/
def worldNoMaster : World := { worldSteady with getLeader := ⟨"", ""⟩ }

/-- The locator still names 10.0.0.5, which reports 10.0.0.6 as the leader;
10.0.0.6 in turn reports 10.0.0.7. -/
def worldMoved : World :=
  { worldSteady with
    roundTrip := fun _ req =>
      if req.URL = "http://10.0.0.5:5050/master/state.json" then .ok snapshotMoved
      else .ok snapshotThird }

/-- The locator names 10.0.0.5, which reports 10.0.0.6; the state 10.0.0.6
serves has an empty leader field. -/
def worldNoLeader : World :=
  { worldSteady with
    roundTrip := fun _ req =>
      if req.URL = "http://10.0.0.5:5050/master/state.json" then .ok snapshotMoved
      else .ok snapshotNoLeader }

/-- The only task of the snapshot has finished. -/
def worldFinished : World := { worldSteady with roundTrip := fun _ _ => .ok snapshotFinished }

/-- The registry write for task `t1` fails; the others succeed. -/
def worldWriteFails : World :=
  { worldSteady with registerOk := fun _ task _ => task.ID != "t1" }

/-- The master at 10.0.0.5 serves a state with an empty leader field, on which
`leaderIP` panics. -/
def worldBadLeaderField : World :=
  { worldSteady with roundTrip := fun _ _ => .ok snapshotNoLeader }

/-- The connection to the master is refused. -/
def worldRefused : World := { worldSteady with roundTrip := fun _ _ => .doError }

/-- The response body breaks off while it is read. -/
def worldTruncated : World := { worldSteady with roundTrip := fun _ _ => .readError }

/-- The response body is not JSON. -/
def worldGarbled : World := { worldSteady with roundTrip := fun _ _ => .decodeError }

/-! ## Lemmas on traces -/

theorem fetches_append (a b : Trace) : fetches (a ++ b) = fetches a ++ fetches b := by
  induction a with
  | nil => rfl
  | cons e a ih => cases e <;> simp [fetches, ih]

theorem registerCalls_append (a b : Trace) :
    registerCalls (a ++ b) = registerCalls a ++ registerCalls b := by
  induction a with
  | nil => rfl
  | cons e a ih => cases e <;> simp [registerCalls, ih]

theorem registerCalls_of_no_registry (t : Trace) (h : ∀ e ∈ t, e.isRegistry = false) :
    registerCalls t = [] := by
  induction t with
  | nil => rfl
  | cons e t ih =>
    have he := h e (List.mem_cons_self e t)
    have ht := ih (fun x hx => h x (List.mem_cons_of_mem e hx))
    cases e <;> simp_all [registerCalls, Event.isRegistry]

theorem setHeader_newRequest (ip port : String) :
    Request.setHeader ⟨"GET", "http://" ++ ip ++ ":" ++ port ++ "/master/state.json", []⟩
      "Content-Type" "application/json" = stateRequest ip port := by
  simp [Request.setHeader, stateRequest]

/-! ## Lemmas on the fetch -/

/-- The three ways `loadFromMaster` ends. -/
theorem loadFromMaster_cases (w : World) (t : Trace) (ip port : String) :
    (w.validURL (stateRequest ip port).URL = false ∧
      loadFromMaster w t ip port = ⟨t, .panic⟩) ∨
    (w.validURL (stateRequest ip port).URL = true ∧
      (∀ sj, w.roundTrip t (stateRequest ip port) ≠ .ok sj) ∧
      loadFromMaster w t ip port =
        ⟨t ++ [.httpDo (stateRequest ip port), .fatal], .exit⟩) ∨
    (w.validURL (stateRequest ip port).URL = true ∧
      ∃ sj, w.roundTrip t (stateRequest ip port) = .ok sj ∧
        loadFromMaster w t ip port = ⟨t ++ [.httpDo (stateRequest ip port)], .ret sj⟩) := by
  unfold loadFromMaster NewRequest
  cases hv : w.validURL (stateRequest ip port).URL with
  | false =>
    left
    simp only [stateRequest] at hv
    simp [hv]
  | true =>
    right
    simp only [stateRequest] at hv
    simp only [hv, if_true, setHeader_newRequest]
    cases hr : w.roundTrip t (stateRequest ip port) with
    | doError => left; simp
    | readError => left; simp
    | decodeError => left; simp
    | ok sj => right; exact ⟨trivial, sj, rfl, rfl⟩

/-- Every way the body of `loadState` ends, with the trace it leaves. -/
theorem loadStateBody_cases (w : World) (t : Trace) :
    (w.getLeader.Ip = "" ∧
      loadStateBody w t = ⟨t, .ret (State.zero, some "No master in zookeeper")⟩) ∨
    (w.getLeader.Ip ≠ "" ∧
      w.validURL (stateRequest w.getLeader.Ip w.getLeader.PortString).URL = false ∧
      loadStateBody w t = ⟨t, .panic⟩) ∨
    (w.getLeader.Ip ≠ "" ∧
      w.validURL (stateRequest w.getLeader.Ip w.getLeader.PortString).URL = true ∧
      (∀ sj, w.roundTrip t (stateRequest w.getLeader.Ip w.getLeader.PortString) ≠ .ok sj) ∧
      loadStateBody w t =
        ⟨t ++ [.httpDo (stateRequest w.getLeader.Ip w.getLeader.PortString), .fatal], .exit⟩) ∨
    (w.getLeader.Ip ≠ "" ∧
      w.validURL (stateRequest w.getLeader.Ip w.getLeader.PortString).URL = true ∧
      ∃ s1, w.roundTrip t (stateRequest w.getLeader.Ip w.getLeader.PortString) = .ok s1 ∧
        ((w.leaderIP s1.Leader = none ∧
            loadStateBody w t =
              ⟨t ++ [.httpDo (stateRequest w.getLeader.Ip w.getLeader.PortString)], .panic⟩) ∨
         (w.leaderIP s1.Leader = some w.getLeader.Ip ∧
            loadStateBody w t =
              ⟨t ++ [.httpDo (stateRequest w.getLeader.Ip w.getLeader.PortString)],
                .ret (s1, none)⟩) ∨
         (∃ rip, w.leaderIP s1.Leader = some rip ∧ rip ≠ w.getLeader.Ip ∧
            ((w.validURL (stateRequest rip w.getLeader.PortString).URL = false ∧
                loadStateBody w t =
                  ⟨t ++ [.httpDo (stateRequest w.getLeader.Ip w.getLeader.PortString)],
                    .panic⟩) ∨
             (w.validURL (stateRequest rip w.getLeader.PortString).URL = true ∧
                (∀ sj, w.roundTrip
                    (t ++ [.httpDo (stateRequest w.getLeader.Ip w.getLeader.PortString)])
                    (stateRequest rip w.getLeader.PortString) ≠ .ok sj) ∧
                loadStateBody w t =
                  ⟨t ++ [.httpDo (stateRequest w.getLeader.Ip w.getLeader.PortString),
                      .httpDo (stateRequest rip w.getLeader.PortString), .fatal], .exit⟩) ∨
             (w.validURL (stateRequest rip w.getLeader.PortString).URL = true ∧
                ∃ s2, w.roundTrip
                    (t ++ [.httpDo (stateRequest w.getLeader.Ip w.getLeader.PortString)])
                    (stateRequest rip w.getLeader.PortString) = .ok s2 ∧
                  loadStateBody w t =
                    ⟨t ++ [.httpDo (stateRequest w.getLeader.Ip w.getLeader.PortString),
                        .httpDo (stateRequest rip w.getLeader.PortString)],
                      .ret (s2, none)⟩))))) := by
  by_cases hA : w.getLeader.Ip = ""
  · left
    exact ⟨hA, by simp [loadStateBody, hA]⟩
  · right
    rcases loadFromMaster_cases w t w.getLeader.Ip w.getLeader.PortString with
      ⟨hv, h1⟩ | ⟨hv, hbad, h1⟩ | ⟨hv, s1, hr, h1⟩
    · left
      exact ⟨hA, hv, by simp [loadStateBody, hA, h1, Run.andThen]⟩
    · right; left
      exact ⟨hA, hv, hbad, by simp [loadStateBody, hA, h1, Run.andThen]⟩
    · right; right
      refine ⟨hA, hv, s1, hr, ?_⟩
      cases hl : w.leaderIP s1.Leader with
      | none =>
        left
        exact ⟨rfl, by simp [loadStateBody, hA, h1, Run.andThen, hl]⟩
      | some rip =>
        right
        by_cases hrip : rip = w.getLeader.Ip
        · left
          subst hrip
          exact ⟨rfl, by simp [loadStateBody, hA, h1, Run.andThen, hl]⟩
        · right
          refine ⟨rip, rfl, hrip, ?_⟩
          rcases loadFromMaster_cases w
              (t ++ [.httpDo (stateRequest w.getLeader.Ip w.getLeader.PortString)])
              rip w.getLeader.PortString with
            ⟨hv2, h2⟩ | ⟨hv2, hbad2, h2⟩ | ⟨hv2, s2, hr2, h2⟩
          · left
            exact ⟨hv2, by simp [loadStateBody, hA, h1, Run.andThen, hl, hrip, h2]⟩
          · right; left
            exact ⟨hv2, hbad2, by simp [loadStateBody, hA, h1, Run.andThen, hl, hrip, h2]⟩
          · right; right
            exact ⟨hv2, s2, hr2, by simp [loadStateBody, hA, h1, Run.andThen, hl, hrip, h2]⟩

/-- The handler of `loadState` turns a panic of the body into a return of the
zero values and leaves every other ending as it is. -/
theorem loadState_of_body (w : World) (t : Trace) :
    (∀ t1, loadStateBody w t = ⟨t1, .panic⟩ →
      loadState w t = ⟨t1, .ret (State.zero, none)⟩) ∧
    (∀ t1 r, loadStateBody w t = ⟨t1, .ret r⟩ → loadState w t = ⟨t1, .ret r⟩) ∧
    (∀ t1, loadStateBody w t = ⟨t1, .exit⟩ → loadState w t = ⟨t1, .exit⟩) := by
  refine ⟨?_, ?_, ?_⟩
  · intro t1 h; simp [loadState, h]
  · intro t1 r h; simp [loadState, h]
  · intro t1 h; simp [loadState, h]

/-- The trace `loadState` leaves from an empty trace holds no registry call. -/
theorem loadState_no_registry (w : World) :
    ∀ e ∈ (loadState w []).trace, e.isRegistry = false := by
  rcases loadStateBody_cases w [] with
    ⟨_, h⟩ | ⟨_, _, h⟩ | ⟨_, _, _, h⟩ |
    ⟨_, _, s1, _, (⟨_, h⟩ | ⟨_, h⟩ |
      ⟨rip, _, _, (⟨_, h⟩ | ⟨_, _, h⟩ | ⟨_, s2, _, h⟩)⟩)⟩ <;>
  simp [loadState, h, Event.isRegistry]

/-! ## Lemmas on reconciliation -/

theorem eligibleTasks_nil (agents : List (String × String)) :
    eligibleTasks agents [] = [] := rfl

theorem eligibleTasks_cons (agents : List (String × String)) (task : Task)
    (rest : List Task) :
    eligibleTasks agents (task :: rest) =
      (match agents.lookup task.SlaveID with
        | some agent => if task.State = "TASK_RUNNING" then [(task, agent)] else []
        | none => []) ++ eligibleTasks agents rest := by
  unfold eligibleTasks
  rw [List.filterMap_cons]
  cases agents.lookup task.SlaveID with
  | none => simp
  | some agent =>
    by_cases hs : task.State = "TASK_RUNNING" <;> simp [hs]

/-- One `registerTask` call returns and leaves its call event, followed by at
most one write event. -/
theorem registerTask_spec (w : World) (t : Trace) (task : Task) (agent : String) :
    ∃ mid, registerTask w t task agent = ⟨t ++ mid, .ret ()⟩ ∧
      registerCalls mid = [(task, agent)] ∧ ∀ e ∈ mid, e.isTaskEvent = true := by
  unfold registerTask
  by_cases hc : w.cacheHit (t ++ [.registerTask task agent]) task agent = true
  · exact ⟨[.registerTask task agent], by simp [hc], rfl, by simp [Event.isTaskEvent]⟩
  · exact ⟨[.registerTask task agent,
        .registryWrite task agent (w.registerOk (t ++ [.registerTask task agent]) task agent)],
      by simp [hc], rfl, by simp [Event.isTaskEvent]⟩

/-- The inner loop returns; its `registerTask` calls are the eligible tasks of
the framework, and it makes no other kind of call. -/
theorem parseTasks_spec (w : World) (m : Mesos) (tasks : List Task) :
    ∀ t, ∃ mid, parseTasks w m t tasks = ⟨t ++ mid, .ret ()⟩ ∧
      registerCalls mid = eligibleTasks m.Agents tasks ∧
      ∀ e ∈ mid, e.isTaskEvent = true := by
  induction tasks with
  | nil =>
    intro t
    exact ⟨[], by simp [parseTasks], rfl, by simp⟩
  | cons task rest ih =>
    intro t
    rw [eligibleTasks_cons]
    cases hl : m.Agents.lookup task.SlaveID with
    | none =>
      obtain ⟨mid, h1, h2, h3⟩ := ih t
      exact ⟨mid, by simp [parseTasks, hl, h1], by simp [h2], h3⟩
    | some agent =>
      by_cases hs : task.State = "TASK_RUNNING"
      · obtain ⟨mid1, g1, g2, g3⟩ := registerTask_spec w t task agent
        obtain ⟨mid, h1, h2, h3⟩ := ih (t ++ mid1)
        refine ⟨mid1 ++ mid, ?_, ?_, ?_⟩
        · simp [parseTasks, hl, hs, g1, Run.andThen, h1]
        · simp [registerCalls_append, g2, h2, hs]
        · intro e he
          rcases List.mem_append.mp he with he | he
          · exact g3 e he
          · exact h3 e he
      · obtain ⟨mid, h1, h2, h3⟩ := ih t
        exact ⟨mid, by simp [parseTasks, hl, hs, h1], by simp [h2, hs], h3⟩

/-- The outer loop returns; its `registerTask` calls are the eligible tasks of
the frameworks in order, and it makes no other kind of call. -/
theorem parseFrameworks_spec (w : World) (m : Mesos) (fws : List Framework) :
    ∀ t, ∃ mid, parseFrameworks w m t fws = ⟨t ++ mid, .ret ()⟩ ∧
      registerCalls mid = fws.flatMap (fun fw => eligibleTasks m.Agents fw.Tasks) ∧
      ∀ e ∈ mid, e.isTaskEvent = true := by
  induction fws with
  | nil =>
    intro t
    exact ⟨[], by simp [parseFrameworks], rfl, by simp⟩
  | cons fw rest ih =>
    intro t
    obtain ⟨mid1, g1, g2, g3⟩ := parseTasks_spec w m fw.Tasks t
    obtain ⟨mid, h1, h2, h3⟩ := ih (t ++ mid1)
    refine ⟨mid1 ++ mid, ?_, ?_, ?_⟩
    · simp [parseFrameworks, g1, Run.andThen, h1]
    · simp [registerCalls_append, g2, h2]
    · intro e he
      rcases List.mem_append.mp he with he | he
      · exact g3 e he
      · exact h3 e he

/-- The shape of `parseState`: `RegisterHosts`, then the task calls, then
`Deregister`; it returns the receiver with the rebuilt agent index. -/
theorem parseState_spec (w : World) (t : Trace) (m : Mesos) (sj : State) :
    ∃ mid, parseState w t m sj =
        ⟨t ++ [.registerHosts sj] ++ mid ++ [.deregister], .ret ⟨w.RegisterHosts sj⟩⟩ ∧
      registerCalls mid = eligible (w.RegisterHosts sj) sj ∧
      ∀ e ∈ mid, e.isTaskEvent = true := by
  obtain ⟨mid, h1, h2, h3⟩ :=
    parseFrameworks_spec w ⟨w.RegisterHosts sj⟩ sj.Frameworks (t ++ [.registerHosts sj])
  exact ⟨mid, by simp [parseState, h1, Run.andThen], by simpa [eligible] using h2, h3⟩

/-- The shape of a cycle that reaches reconciliation. -/
theorem Refresh_reconcile (w : World) (m : Mesos) (t : Trace) (sj : State)
    (h1 : loadState w [] = ⟨t, .ret (sj, none)⟩) (h2 : sj.Leader ≠ "") :
    ∃ mid, Refresh w m =
        ⟨t ++ [.cacheCreate (w.CacheCreate t)] ++
            (if w.CacheCreate t then [.loadCache] else []) ++
            [.registerHosts sj] ++ mid ++ [.deregister],
          .ret (⟨w.RegisterHosts sj⟩, none)⟩ ∧
      registerCalls mid = eligible (w.RegisterHosts sj) sj ∧
      ∀ e ∈ mid, e.isTaskEvent = true := by
  obtain ⟨mid, g1, g2, g3⟩ := parseState_spec w
    (if w.CacheCreate t then t ++ [.cacheCreate (w.CacheCreate t)] ++ [.loadCache]
      else t ++ [.cacheCreate (w.CacheCreate t)]) m sj
  refine ⟨mid, ?_, g2, g3⟩
  unfold Refresh
  rw [h1]
  simp only [Run.andThen, h2, if_false]
  rw [g1]
  cases w.CacheCreate t <;> simp

theorem fetches_of_taskEvents (t : Trace) (h : ∀ e ∈ t, e.isTaskEvent = true) :
    fetches t = [] := by
  induction t with
  | nil => rfl
  | cons e t ih =>
    have he := h e (List.mem_cons_self e t)
    have ht := ih (fun x hx => h x (List.mem_cons_of_mem e hx))
    cases e <;> simp_all [fetches, Event.isTaskEvent]

/-- A cycle fetches only inside `loadState`. -/
theorem Refresh_fetches (w : World) (m : Mesos) :
    fetches (Refresh w m).trace = fetches (loadState w []).trace := by
  rcases hls : loadState w [] with ⟨t, out⟩
  cases out with
  | panic => simp [Refresh, hls, Run.andThen]
  | exit => simp [Refresh, hls, Run.andThen]
  | ret r =>
    obtain ⟨sj, err⟩ := r
    cases err with
    | some e => simp [Refresh, hls, Run.andThen]
    | none =>
      by_cases hl : sj.Leader = ""
      · simp [Refresh, hls, Run.andThen, hl]
      · obtain ⟨mid, g1, _, g3⟩ := Refresh_reconcile w m t sj hls hl
        rw [g1]
        have hmid := fetches_of_taskEvents mid g3
        cases w.CacheCreate t <;> simp [fetches_append, fetches, hmid]

/-- The fetches of `loadState`, in order. -/
theorem loadState_fetches (w : World) :
    fetches (loadState w []).trace = [] ∨
    fetches (loadState w []).trace =
      [stateRequest w.getLeader.Ip w.getLeader.PortString] ∨
    ∃ s1 rip,
      w.roundTrip [] (stateRequest w.getLeader.Ip w.getLeader.PortString) = .ok s1 ∧
      w.leaderIP s1.Leader = some rip ∧ rip ≠ w.getLeader.Ip ∧
      fetches (loadState w []).trace =
        [stateRequest w.getLeader.Ip w.getLeader.PortString,
          stateRequest rip w.getLeader.PortString] := by
  rcases loadStateBody_cases w [] with
    ⟨_, h⟩ | ⟨_, _, h⟩ | ⟨_, _, _, h⟩ |
    ⟨_, _, s1, hr, (⟨_, h⟩ | ⟨_, h⟩ |
      ⟨rip, hl, hne, (⟨_, h⟩ | ⟨_, _, h⟩ | ⟨_, s2, _, h⟩)⟩)⟩
  · left; simp [loadState, h, fetches]
  · left; simp [loadState, h, fetches]
  · right; left; simp [loadState, h, fetches]
  · right; left; simp [loadState, h, fetches]
  · right; left; simp [loadState, h, fetches]
  · right; left; simp [loadState, h, fetches]
  · right; right; exact ⟨s1, rip, hr, hl, hne, by simp [loadState, h, fetches]⟩
  · right; right; exact ⟨s1, rip, hr, hl, hne, by simp [loadState, h, fetches]⟩

/-- When `loadState` returns, its error is set exactly when the locator's
address is empty. -/
theorem loadState_err_iff (w : World) (t0 t : Trace) (sj : State) (err : Option String)
    (h : loadState w t0 = ⟨t, .ret (sj, err)⟩) :
    err ≠ none ↔ w.getLeader.Ip = "" := by
  rcases loadStateBody_cases w t0 with
    ⟨hA, hb⟩ | ⟨hA, _, hb⟩ | ⟨hA, _, _, hb⟩ |
    ⟨hA, _, s1, _, (⟨_, hb⟩ | ⟨_, hb⟩ |
      ⟨rip, _, _, (⟨_, hb⟩ | ⟨_, _, hb⟩ | ⟨_, s2, _, hb⟩)⟩)⟩ <;>
  simp [loadState, hb] at h <;>
  simp [hA, ← h.2.2]

/-- A cycle whose fetched state has an empty `Leader` stops before the
registry: the trace is the one `loadState` left. -/
theorem Refresh_empty_leader (w : World) (m : Mesos) (t : Trace) (sj : State)
    (h1 : loadState w [] = ⟨t, .ret (sj, none)⟩) (h2 : sj.Leader = "") :
    Refresh w m = ⟨t, .ret (m, some "Empty master")⟩ ∧
    ∀ e ∈ t, e.isRegistry = false := by
  refine ⟨by simp [Refresh, h1, Run.andThen, h2], ?_⟩
  have h := loadState_no_registry w
  rw [h1] at h
  exact h

/-! ## The claims -/

/-- C1: for every fetched state and every agent index (the one `RegisterHosts`
leaves in `m.Agents`, an arbitrary value of the world), the `registerTask`
calls that `parseState` adds to the trace are exactly the eligible tasks:
those of the state, framework by framework and task by task, whose `SlaveID`
is a key of the index and whose `State` is `TASK_RUNNING`, each with the
hostname the index gives; no other task is registered. -/
theorem parseState_registers_eligible (w : World) (t : Trace) (m : Mesos) (sj : State) :
    registerCalls (parseState w t m sj).trace =
      registerCalls t ++ eligible (w.RegisterHosts sj) sj := by
  obtain ⟨mid, h1, h2, _⟩ := parseState_spec w t m sj
  rw [h1]
  simp [registerCalls_append, registerCalls, h2]

/-- C2: when the locator returns a leader with an empty `Ip`, `loadState`
returns the error "No master in zookeeper" and leaves the trace as it was (no
fetch); `Refresh` returns that error with an empty trace (no fetch, no
registry call) and an unchanged receiver; the process goes on: the polling
loop runs the remaining cycles. -/
theorem no_master_aborts_cycle (w : World) (m : Mesos) (ws : List World)
    (h : w.getLeader.Ip = "") :
    (∀ t, loadState w t = ⟨t, .ret (State.zero, some "No master in zookeeper")⟩) ∧
    Refresh w m = ⟨[], .ret (m, some "No master in zookeeper")⟩ ∧
    main (w :: ws) m = main ws m := by
  have hl : ∀ t, loadState w t = ⟨t, .ret (State.zero, some "No master in zookeeper")⟩ := by
    intro t
    simp [loadState, loadStateBody, h]
  have hr : Refresh w m = ⟨[], .ret (m, some "No master in zookeeper")⟩ := by
    simp [Refresh, hl, Run.andThen]
  refine ⟨hl, hr, ?_⟩
  simp [main, hr]

theorem no_master_aborts_cycle_witness :
    worldNoMaster.getLeader.Ip = "" ∧
    Refresh worldNoMaster ⟨[("agent-0", "host-z")]⟩ =
      ⟨[], .ret (⟨[("agent-0", "host-z")]⟩, some "No master in zookeeper")⟩ ∧
    main [worldNoMaster, worldSteady] ⟨[]⟩ = main [worldSteady] ⟨[]⟩ :=
  ⟨by decide,
    (no_master_aborts_cycle worldNoMaster ⟨[("agent-0", "host-z")]⟩ [] (by decide)).2.1,
    (no_master_aborts_cycle worldNoMaster ⟨[]⟩ [worldSteady] (by decide)).2.2⟩

/-- C3: `loadState` never issues more than two fetches.  For a non-empty
candidate address A whose fetch answers with a state s1 that reports the
leader address B: when B is A there is exactly one fetch, to A, and s1 is
returned; when B differs there are exactly two fetches, the second to B, and
the state s2 answered by B is returned, whatever address s2 reports. -/
theorem loadState_one_corrective_fetch (w : World) :
    (fetches (loadState w []).trace).length ≤ 2 ∧
    ∀ (A port : String) (s1 : State) (B : String),
      w.getLeader = ⟨A, port⟩ → A ≠ "" →
      w.validURL (stateRequest A port).URL = true →
      w.roundTrip [] (stateRequest A port) = .ok s1 →
      w.leaderIP s1.Leader = some B →
      (B = A → loadState w [] = ⟨[.httpDo (stateRequest A port)], .ret (s1, none)⟩) ∧
      (B ≠ A → ∀ s2, w.validURL (stateRequest B port).URL = true →
        w.roundTrip [.httpDo (stateRequest A port)] (stateRequest B port) = .ok s2 →
        loadState w [] =
          ⟨[.httpDo (stateRequest A port), .httpDo (stateRequest B port)],
            .ret (s2, none)⟩) := by
  constructor
  · rcases loadState_fetches w with h | h | ⟨_, _, _, _, _, h⟩ <;> simp [h]
  · intro A port s1 B hL hA hv hr hB
    have hIp : w.getLeader.Ip = A := by rw [hL]
    have hPort : w.getLeader.PortString = port := by rw [hL]
    rcases loadStateBody_cases w [] with
      ⟨hA0, _⟩ | ⟨_, hv0, _⟩ | ⟨_, _, hbad, _⟩ | ⟨_, _, s, hs, hrest⟩
    · exact absurd (hIp ▸ hA0) hA
    · rw [hIp, hPort, hv] at hv0
      exact absurd hv0 (by simp)
    · rw [hIp, hPort] at hbad
      exact absurd hr (hbad s1)
    · rw [hIp, hPort] at hs hrest
      rw [hr] at hs
      cases hs
      rw [hB] at hrest
      rcases hrest with ⟨hn, _⟩ | ⟨he, hb⟩ | ⟨rip, he, hne, hrest⟩
      · exact absurd hn (by simp)
      · have hBA : B = A := Option.some.inj he
        refine ⟨fun _ => ?_, fun hne => absurd hBA hne⟩
        simp [loadState, hb]
      · have hrip : B = rip := Option.some.inj he
        subst hrip
        refine ⟨fun hBA => absurd hBA hne, fun _ s2 hv2 hr2 => ?_⟩
        rcases hrest with ⟨hv0, _⟩ | ⟨_, hbad, _⟩ | ⟨_, s, hs, hb⟩
        · rw [hv2] at hv0
          exact absurd hv0 (by simp)
        · exact absurd (by simpa using hr2) (hbad s2)
        · have hs2 : s = s2 := by
            have := hs.symm.trans (by simpa using hr2)
            exact HttpResult.ok.inj this
          subst hs2
          simp [loadState, hb]

theorem loadState_one_corrective_fetch_witness :
    worldMoved.getLeader = ⟨"10.0.0.5", "5050"⟩ ∧
    worldMoved.leaderIP snapshotMoved.Leader = some "10.0.0.6" ∧
    worldMoved.leaderIP snapshotThird.Leader = some "10.0.0.7" ∧
    loadState worldMoved [] =
      ⟨[.httpDo (stateRequest "10.0.0.5" "5050"), .httpDo (stateRequest "10.0.0.6" "5050")],
        .ret (snapshotThird, none)⟩ :=
  ⟨by decide, by decide, by decide,
    ((loadState_one_corrective_fetch worldMoved).2 "10.0.0.5" "5050" snapshotMoved "10.0.0.6"
      (by decide) (by decide) (by decide) (by decide) (by decide)).2
      (by decide) snapshotThird (by decide) (by decide)⟩

/-- C5: when `loadState` succeeds with a state whose `Leader` is empty,
`Refresh` returns the error "Empty master", the receiver (and with it the
agent index) is unchanged, and the trace of the cycle is the trace of
`loadState`, which holds no registry call: no `CacheCreate`, `LoadCache`,
`RegisterHosts`, `registerTask` or `Deregister`. -/
theorem empty_leader_aborts_cycle (w : World) (m : Mesos) (t : Trace) (sj : State)
    (h1 : loadState w [] = ⟨t, .ret (sj, none)⟩) (h2 : sj.Leader = "") :
    Refresh w m = ⟨t, .ret (m, some "Empty master")⟩ ∧
    ∀ e ∈ t, e.isRegistry = false :=
  Refresh_empty_leader w m t sj h1 h2

theorem empty_leader_aborts_cycle_witness :
    loadState worldNoLeader [] =
      ⟨[.httpDo (stateRequest "10.0.0.5" "5050"), .httpDo (stateRequest "10.0.0.6" "5050")],
        .ret (snapshotNoLeader, none)⟩ ∧
    snapshotNoLeader.Leader = "" ∧
    Refresh worldNoLeader ⟨[("agent-0", "host-z")]⟩ =
      ⟨[.httpDo (stateRequest "10.0.0.5" "5050"), .httpDo (stateRequest "10.0.0.6" "5050")],
        .ret (⟨[("agent-0", "host-z")]⟩, some "Empty master")⟩ :=
  ⟨by decide, by decide,
    (empty_leader_aborts_cycle worldNoLeader ⟨[("agent-0", "host-z")]⟩
      [.httpDo (stateRequest "10.0.0.5" "5050"), .httpDo (stateRequest "10.0.0.6" "5050")]
      snapshotNoLeader (by decide) (by decide)).1⟩

/-- C6: in a cycle that reaches reconciliation, `Deregister` is the last call
of the trace and occurs in it exactly once; every `registerTask` call of the
cycle therefore comes before it, and it is made whether or not any task is
registered. -/
theorem deregister_once_and_last (w : World) (m : Mesos) (t : Trace) (sj : State)
    (h1 : loadState w [] = ⟨t, .ret (sj, none)⟩) (h2 : sj.Leader ≠ "") :
    (Refresh w m).trace.getLast? = some .deregister ∧
    (Refresh w m).trace.count .deregister = 1 := by
  obtain ⟨mid, g1, _, g3⟩ := Refresh_reconcile w m t sj h1 h2
  have ht : ∀ e ∈ t, e.isRegistry = false := by
    have h := loadState_no_registry w
    rw [h1] at h
    exact h
  have hct : t.count .deregister = 0 := by
    rw [List.count_eq_zero]
    intro hmem
    have := ht _ hmem
    simp [Event.isRegistry] at this
  have hcm : mid.count .deregister = 0 := by
    rw [List.count_eq_zero]
    intro hmem
    have := g3 _ hmem
    simp [Event.isTaskEvent] at this
  rw [g1]
  constructor
  · exact List.getLast?_concat _
  · cases w.CacheCreate t <;> simp [List.count_append, hct, hcm, List.count_cons]

theorem deregister_once_and_last_witness :
    loadState worldFinished [] =
      ⟨[.httpDo (stateRequest "10.0.0.5" "5050")], .ret (snapshotFinished, none)⟩ ∧
    snapshotFinished.Leader ≠ "" ∧
    registerCalls (Refresh worldFinished ⟨[]⟩).trace = [] ∧
    (Refresh worldFinished ⟨[]⟩).trace.getLast? = some .deregister ∧
    (Refresh worldFinished ⟨[]⟩).trace.count .deregister = 1 :=
  ⟨by decide, by decide, by decide,
    deregister_once_and_last worldFinished ⟨[]⟩ [.httpDo (stateRequest "10.0.0.5" "5050")]
      snapshotFinished (by decide) (by decide)⟩

/-- C7: in a cycle that reaches reconciliation, `LoadCache` is called exactly
when `CacheCreate()` answers true.  When it is called, it is called once
(neither before nor after its place directly behind `CacheCreate`), and no
`RegisterHosts`, `registerTask` or `Deregister` call comes before it: they are
all in the rest of the trace. -/
theorem loadCache_iff_cacheCreate (w : World) (m : Mesos) (t : Trace) (sj : State)
    (h1 : loadState w [] = ⟨t, .ret (sj, none)⟩) (h2 : sj.Leader ≠ "") :
    (Event.loadCache ∈ (Refresh w m).trace ↔ w.CacheCreate t = true) ∧
    (w.CacheCreate t = true →
      ∃ post, (Refresh w m).trace = t ++ [.cacheCreate true, .loadCache] ++ post ∧
        Event.loadCache ∉ t ∧ Event.loadCache ∉ post ∧
        (∀ e ∈ t ++ [.cacheCreate true], e.isReconcile = false) ∧
        Event.registerHosts sj ∈ post ∧ Event.deregister ∈ post) := by
  obtain ⟨mid, g1, _, g3⟩ := Refresh_reconcile w m t sj h1 h2
  have ht : ∀ e ∈ t, e.isRegistry = false := by
    have h := loadState_no_registry w
    rw [h1] at h
    exact h
  have hlt : Event.loadCache ∉ t := by
    intro hmem
    have := ht _ hmem
    simp [Event.isRegistry] at this
  have hlm : Event.loadCache ∉ mid := by
    intro hmem
    have := g3 _ hmem
    simp [Event.isTaskEvent] at this
  constructor
  · rw [g1]
    cases hc : w.CacheCreate t <;> simp [hlt, hlm]
  · intro hc
    refine ⟨[.registerHosts sj] ++ mid ++ [.deregister], ?_, hlt, ?_, ?_, ?_, ?_⟩
    · rw [g1, hc]
      simp
    · simp [hlm]
    · intro e he
      rcases List.mem_append.mp he with he | he
      · have := ht e he
        cases e <;> simp_all [Event.isRegistry, Event.isReconcile]
      · simp at he
        subst he
        rfl
    · simp
    · simp

theorem loadCache_iff_cacheCreate_witness :
    loadState worldSteady [] =
      ⟨[.httpDo (stateRequest "10.0.0.5" "5050")], .ret (snapshot, none)⟩ ∧
    snapshot.Leader ≠ "" ∧
    worldSteady.CacheCreate [.httpDo (stateRequest "10.0.0.5" "5050")] = true ∧
    Event.loadCache ∈ (Refresh worldSteady ⟨[]⟩).trace :=
  ⟨by decide, by decide, by decide,
    (loadCache_iff_cacheCreate worldSteady ⟨[]⟩ [.httpDo (stateRequest "10.0.0.5" "5050")]
      snapshot (by decide) (by decide)).1.mpr (by decide)⟩

/-- C8: in a cycle that reaches reconciliation, for every assignment `ok` of
success or failure to the registry writes, `registerTask` is called for every
eligible task in snapshot order (a failed write stops nothing after it),
`Deregister` is the last call of the cycle, and `Refresh` returns nil. -/
theorem write_failure_does_not_abort (w : World) (m : Mesos) (t : Trace) (sj : State)
    (ok : Trace → Task → String → Bool)
    (h1 : loadState w [] = ⟨t, .ret (sj, none)⟩) (h2 : sj.Leader ≠ "") :
    registerCalls (Refresh { w with registerOk := ok } m).trace =
      eligible (w.RegisterHosts sj) sj ∧
    (Refresh { w with registerOk := ok } m).trace.getLast? = some .deregister ∧
    (Refresh { w with registerOk := ok } m).out = .ret (⟨w.RegisterHosts sj⟩, none) := by
  have h1w : loadState { w with registerOk := ok } [] = ⟨t, .ret (sj, none)⟩ := h1
  obtain ⟨mid, g1, g2, _⟩ := Refresh_reconcile { w with registerOk := ok } m t sj h1w h2
  have ht : registerCalls t = [] := by
    apply registerCalls_of_no_registry
    have h := loadState_no_registry w
    rw [h1] at h
    exact h
  rw [g1]
  refine ⟨?_, List.getLast?_concat _, rfl⟩
  have g2w : registerCalls mid = eligible (w.RegisterHosts sj) sj := g2
  cases w.CacheCreate t <;> simp [registerCalls_append, registerCalls, ht, g2w]

theorem write_failure_does_not_abort_witness :
    loadState worldSteady [] =
      ⟨[.httpDo (stateRequest "10.0.0.5" "5050")], .ret (snapshot, none)⟩ ∧
    snapshot.Leader ≠ "" ∧
    (Refresh worldWriteFails ⟨[]⟩).trace =
      [.httpDo (stateRequest "10.0.0.5" "5050"), .cacheCreate true, .loadCache,
        .registerHosts snapshot,
        .registerTask taskWeb "host-a", .registryWrite taskWeb "host-a" false,
        .registerTask taskApi "host-a", .registryWrite taskApi "host-a" true,
        .deregister] ∧
    registerCalls (Refresh worldWriteFails ⟨[]⟩).trace =
      [(taskWeb, "host-a"), (taskApi, "host-a")] ∧
    (Refresh worldWriteFails ⟨[]⟩).out = .ret (⟨[("agent-1", "host-a")]⟩, none) :=
  ⟨by decide, by decide, by decide,
    (write_failure_does_not_abort worldSteady ⟨[]⟩ [.httpDo (stateRequest "10.0.0.5" "5050")]
      snapshot (fun _ task _ => task.ID != "t1") (by decide) (by decide)).1,
    (write_failure_does_not_abort worldSteady ⟨[]⟩ [.httpDo (stateRequest "10.0.0.5" "5050")]
      snapshot (fun _ task _ => task.ID != "t1") (by decide) (by decide)).2.2⟩

/-- C9: the fetches of a cycle are none, or one, or two; each is the request
of the HTTP contract: `GET`, header `Content-Type: application/json`, URL
`http://<ip>:<port>/master/state.json` with the port string of the locator's
leader; the first goes to the locator's `Ip`, the second to the address that
`leaderIP` reads from the state the first one answered. -/
theorem fetches_follow_contract (w : World) (m : Mesos) :
    fetches (Refresh w m).trace = [] ∨
    fetches (Refresh w m).trace =
      [stateRequest w.getLeader.Ip w.getLeader.PortString] ∨
    ∃ s1 rip,
      w.roundTrip [] (stateRequest w.getLeader.Ip w.getLeader.PortString) = .ok s1 ∧
      w.leaderIP s1.Leader = some rip ∧ rip ≠ w.getLeader.Ip ∧
      fetches (Refresh w m).trace =
        [stateRequest w.getLeader.Ip w.getLeader.PortString,
          stateRequest rip w.getLeader.PortString] := by
  rw [Refresh_fetches]
  exact loadState_fetches w

/-- C10: whenever `loadState` returns, its error is non-nil exactly when the
locator's `Ip` is empty.  When the body panics (in the fetch or in
`leaderIP`), the handler recovers and `loadState` returns the zero state with
a nil error; `Refresh` then returns "Empty master", leaves the receiver
unchanged and makes no registry call. -/
theorem loadState_error_only_without_master (w : World) (m : Mesos) :
    (∀ t0 t sj err, loadState w t0 = ⟨t, .ret (sj, err)⟩ →
      (err ≠ none ↔ w.getLeader.Ip = "")) ∧
    (∀ t, loadStateBody w [] = ⟨t, .panic⟩ →
      loadState w [] = ⟨t, .ret (State.zero, none)⟩ ∧
      Refresh w m = ⟨t, .ret (m, some "Empty master")⟩ ∧
      ∀ e ∈ t, e.isRegistry = false) := by
  refine ⟨fun t0 t sj err h => loadState_err_iff w t0 t sj err h, ?_⟩
  intro t hb
  have hl : loadState w [] = ⟨t, .ret (State.zero, none)⟩ := (loadState_of_body w []).1 t hb
  have hz : State.zero.Leader = "" := rfl
  exact ⟨hl, Refresh_empty_leader w m t State.zero hl hz⟩

theorem loadState_error_only_without_master_witness :
    worldBadLeaderField.getLeader.Ip ≠ "" ∧
    loadStateBody worldBadLeaderField [] =
      ⟨[.httpDo (stateRequest "10.0.0.5" "5050")], .panic⟩ ∧
    loadState worldBadLeaderField [] =
      ⟨[.httpDo (stateRequest "10.0.0.5" "5050")], .ret (State.zero, none)⟩ ∧
    Refresh worldBadLeaderField ⟨[("agent-0", "host-z")]⟩ =
      ⟨[.httpDo (stateRequest "10.0.0.5" "5050")],
        .ret (⟨[("agent-0", "host-z")]⟩, some "Empty master")⟩ ∧
    ((none : Option String) ≠ none ↔ worldBadLeaderField.getLeader.Ip = "") :=
  ⟨by decide, by decide,
    ((loadState_error_only_without_master worldBadLeaderField ⟨[]⟩).2
      [.httpDo (stateRequest "10.0.0.5" "5050")] (by decide)).1,
    ((loadState_error_only_without_master worldBadLeaderField ⟨[("agent-0", "host-z")]⟩).2
      [.httpDo (stateRequest "10.0.0.5" "5050")] (by decide)).2.1,
    (loadState_error_only_without_master worldBadLeaderField ⟨[]⟩).1 []
      [.httpDo (stateRequest "10.0.0.5" "5050")] State.zero none (by decide)⟩

/-- C4, at the failing inputs: when the request cannot complete, the body
cannot be read, or the body does not decode, `loadFromMaster` calls
`log.Fatal`: `Refresh` does not return, the process exits, and the polling
loop runs no later cycle. -/
theorem fetch_failure_exits_process :
    Refresh worldRefused ⟨[]⟩ =
      ⟨[.httpDo (stateRequest "10.0.0.5" "5050"), .fatal], .exit⟩ ∧
    Refresh worldTruncated ⟨[]⟩ =
      ⟨[.httpDo (stateRequest "10.0.0.5" "5050"), .fatal], .exit⟩ ∧
    Refresh worldGarbled ⟨[]⟩ =
      ⟨[.httpDo (stateRequest "10.0.0.5" "5050"), .fatal], .exit⟩ ∧
    main [worldRefused, worldSteady] ⟨[]⟩ =
      ⟨[.httpDo (stateRequest "10.0.0.5" "5050"), .fatal], .exit⟩ := by
  decide

end MesosConsul
